import Mathlib

/-!
Shallow embedding of `src/g.py`, a synthetic smart-meter data generator.

The Python function `generate_smart_meter_data(num_meters, start_date,
end_date, interval_minutes)` walks, for each meter, a time axis from a start
instant to an end instant (inclusive) at a fixed step, producing one
measurement record per step and probabilistically zero, one, or two event
records per step.

Modelling decisions:
* Timestamps are natural numbers of minutes since a midnight-aligned epoch
  (Python naive `datetime` has no DST, so every day is exactly 1440 minutes
  and `current_time.hour` is `(t / 60) % 24`).  `timedelta(minutes=k)`
  becomes `t + k`.
* Python floats are modelled as rationals `ℚ`; every float literal of the
  source becomes the corresponding rational literal.
* The process-wide random source (`random.random`, `random.uniform`,
  `random.choice`, `random.randint`) is modelled as an explicit oracle: each
  meter receives an `abDraw`/`abUniform` pair for its abnormality factor and
  a stream `ℕ → StepRand` of per-step draws, one `StepRand` field per call
  site in the loop body.  Quantifying over all oracles covers every possible
  behaviour of the global RNG.  `StepRand.Valid` records the ranges the
  corresponding Python distributions guarantee.
* Meter identifiers (`uuid.uuid4()` strings in the source, distinct for the
  run) are abstracted to the meter's index `0 ≤ i < num_meters`; only
  distinctness and equality of ids matter to the properties below.
* The numeric interpolation inside event description f-strings
  (`f"... ({voltage_phase1:.1f}V)"`, the random temperature) is abstracted:
  descriptions keep only their fixed text.  No property depends on them.
* The source's `last_energy_import = 0.0` (line 55) is dead: it is never
  read nor written again, so it is omitted from the meter state.
* With `interval_minutes = 0` and `start ≤ end` the Python `while` loop
  never terminates; the embedding's loop guard additionally requires
  `0 < interval` so the definition is total.  Every theorem about the loop
  assumes a positive interval, matching the source's documented inputs
  (15 or 30).
-/

namespace SmartMeter

/-- The fixed event-type list `event_types` of the source (lines 36-41). -/
def eventTypeList : List String :=
  ["POWER_OUTAGE", "VOLTAGE_SAG", "VOLTAGE_SWELL",
   "TAMPER_DETECTED", "METER_COVER_OPENED",
   "CURRENT_IMBALANCE", "PHASE_FAILURE",
   "HIGH_TEMPERATURE", "METER_RESET"]

/-- One measurement row, in the column order of `measurement_columns`
(source lines 27-34, row built at lines 118-125). -/
structure Measurement where
  meterId : ℕ
  timestamp : ℕ
  activeEnergyImportKwh : ℚ
  reactiveEnergyImportKvarh : ℚ
  activeEnergyExportKwh : ℚ
  reactiveEnergyExportKvarh : ℚ
  voltagePhase1V : ℚ
  voltagePhase2V : ℚ
  voltagePhase3V : ℚ
  currentPhase1A : ℚ
  currentPhase2A : ℚ
  currentPhase3A : ℚ
  maximumDemandKw : ℚ
  powerFactor : ℚ
  deriving Repr, DecidableEq

/-- One event row: `meter_id, timestamp, event_type, event_description`
(source lines 144 and 163, columns at line 170). -/
structure Event where
  meterId : ℕ
  timestamp : ℕ
  eventType : String
  eventDescription : String
  deriving Repr, DecidableEq

/-- The per-step random draws consumed by one iteration of the inner loop,
one field per random-call site, in source order. -/
structure StepRand where
  /-- `random.uniform(0.95, 1.05)` at line 78 (load jitter). -/
  jitter : ℚ
  /-- `random.random()` at line 92 (export coin). -/
  exportDraw : ℚ
  /-- `random.uniform(0.98, 1.02)` at lines 101-103 (three phase voltages). -/
  voltU1 : ℚ
  voltU2 : ℚ
  voltU3 : ℚ
  /-- `random.uniform(0.95, 1.05)` at lines 106-108 (three phase currents). -/
  currU1 : ℚ
  currU2 : ℚ
  currU3 : ℚ
  /-- `random.uniform(0.92, 0.99)` at line 111 (power factor). -/
  pfDraw : ℚ
  /-- `random.random()` at line 130 (anomaly-event trigger). -/
  anomalyDraw : ℚ
  /-- `random.random()` at line 137 (CURRENT_IMBALANCE vs PHASE_FAILURE coin). -/
  anomalyCoin : ℚ
  /-- `random.random()` at line 147 (background-event trigger). -/
  bgDraw : ℚ
  /-- `random.choice(event_types)` at line 148, as an index into the list. -/
  bgChoice : ℕ
  /-- `random.randint(45, 70)` at line 157 (temperature, description only). -/
  tempDraw : ℤ
  deriving Repr

/-- The ranges that the Python random primitives guarantee for the draws of
one step: `random.random()` lands in `[0, 1)`, `random.uniform(a, b)` in
`[a, b]`, `random.choice` picks an index below the list length, and
`random.randint(45, 70)` lands in `[45, 70]`. -/
def StepRand.Valid (r : StepRand) : Prop :=
  0.95 ≤ r.jitter ∧ r.jitter ≤ 1.05 ∧
  0 ≤ r.exportDraw ∧ r.exportDraw < 1 ∧
  0.98 ≤ r.voltU1 ∧ r.voltU1 ≤ 1.02 ∧
  0.98 ≤ r.voltU2 ∧ r.voltU2 ≤ 1.02 ∧
  0.98 ≤ r.voltU3 ∧ r.voltU3 ≤ 1.02 ∧
  0.95 ≤ r.currU1 ∧ r.currU1 ≤ 1.05 ∧
  0.95 ≤ r.currU2 ∧ r.currU2 ≤ 1.05 ∧
  0.95 ≤ r.currU3 ∧ r.currU3 ≤ 1.05 ∧
  0.92 ≤ r.pfDraw ∧ r.pfDraw ≤ 0.99 ∧
  0 ≤ r.anomalyDraw ∧ r.anomalyDraw < 1 ∧
  0 ≤ r.anomalyCoin ∧ r.anomalyCoin < 1 ∧
  0 ≤ r.bgDraw ∧ r.bgDraw < 1 ∧
  r.bgChoice < eventTypeList.length ∧
  45 ≤ r.tempDraw ∧ r.tempDraw ≤ 70

instance (r : StepRand) : Decidable r.Valid := by
  unfold StepRand.Valid; infer_instance

/-- The random draws consumed by one meter: the abnormality draws of source
line 59 and the stream of per-step draws. -/
structure MeterRand where
  /-- `random.random()` in `1.0 if random.random() > 0.3 else ...` (line 59). -/
  abDraw : ℚ
  /-- `random.uniform(0.7, 1.3)` (line 59), consumed when `abDraw ≤ 0.3`. -/
  abUniform : ℚ
  /-- Per-step draws, indexed by the step number of the meter's loop. -/
  stepDraws : ℕ → StepRand

/-- Ranges guaranteed by the Python distributions for one meter's draws. -/
def MeterRand.Valid (mr : MeterRand) : Prop :=
  0 ≤ mr.abDraw ∧ mr.abDraw < 1 ∧
  0.7 ≤ mr.abUniform ∧ mr.abUniform ≤ 1.3 ∧
  ∀ n, (mr.stepDraws n).Valid

/-- Source line 59: `abnormality_factor = 1.0 if random.random() > 0.3 else
random.uniform(0.7, 1.3)`. -/
def abnormalityFactor (mr : MeterRand) : ℚ :=
  if 0.3 < mr.abDraw then 1 else mr.abUniform

/-- The mutable per-meter accumulators of source lines 56-58. -/
structure MeterState where
  cumulativeEnergyImport : ℚ
  cumulativeEnergyExport : ℚ
  maxDemand : ℚ
  deriving Repr, DecidableEq

/-- The initial accumulator values of source lines 56-58. -/
def MeterState.init : MeterState := ⟨0, 0, 0⟩

/-- The hour-of-day base load pattern of source lines 65-75.  `hour` is in
`[0, 24)`, so the final `else` branch is exactly `20 ≤ hour < 24`. -/
def baseLoadFactor (hour : ℕ) : ℚ :=
  if hour < 6 then 0.3
  else if hour < 9 then 0.8
  else if hour < 17 then 0.6
  else if hour < 20 then 0.9
  else 0.4

/-- The abnormal-condition events of one step (source lines 130-144): when
the meter has a non-unity abnormality factor and the trigger draw exceeds
0.95, exactly one event is appended, its type chosen by the cascading
conditionals on `abnormality_factor`. -/
def anomalyEvents (meterId t : ℕ) (ab : ℚ) (r : StepRand) : List Event :=
  if ab ≠ 1 ∧ 0.95 < r.anomalyDraw then
    if 1.2 < ab then
      [⟨meterId, t, "VOLTAGE_SWELL", "Voltage swell detected"⟩]
    else if ab < 0.8 then
      [⟨meterId, t, "VOLTAGE_SAG", "Voltage sag detected"⟩]
    else if 0.5 < r.anomalyCoin then
      [⟨meterId, t, "CURRENT_IMBALANCE", "Current imbalance"⟩]
    else
      [⟨meterId, t, "PHASE_FAILURE", "Phase failure detected"⟩]
  else []

/-- The description text of a background event (source lines 150-161); the
fallback branch is Python's `event_type.replace(chr(95), chr(32)).title()`,
written out per remaining type. -/
def backgroundDescription (eventType : String) : String :=
  if eventType = "POWER_OUTAGE" then "Power outage detected"
  else if eventType = "TAMPER_DETECTED" then "Meter tampering detected"
  else if eventType = "METER_COVER_OPENED" then "Meter cover opened"
  else if eventType = "HIGH_TEMPERATURE" then "High temperature"
  else if eventType = "METER_RESET" then "Meter reset performed"
  else if eventType = "VOLTAGE_SAG" then "Voltage Sag"
  else if eventType = "VOLTAGE_SWELL" then "Voltage Swell"
  else if eventType = "CURRENT_IMBALANCE" then "Current Imbalance"
  else "Phase Failure"

/-- The random background events of one step (source lines 147-163): with
the trigger draw above 0.995, one event of a uniformly chosen type. -/
def backgroundEvents (meterId t : ℕ) (r : StepRand) : List Event :=
  if 0.995 < r.bgDraw then
    let eventType := eventTypeList.getD (r.bgChoice % eventTypeList.length)
        "POWER_OUTAGE"
    [⟨meterId, t, eventType, backgroundDescription eventType⟩]
  else []

/-- The result of one iteration of the inner loop: the updated accumulators,
the measurement row appended at line 126, and the 0-2 event rows appended at
lines 144 and 163. -/
structure StepOut where
  state : MeterState
  meas : Measurement
  events : List Event

/-- One iteration of the per-meter loop body (source lines 64-163), with all
random draws supplied by `r`. -/
def runStep (meterId interval : ℕ) (ab : ℚ) (t : ℕ) (r : StepRand)
    (st : MeterState) : StepOut :=
  let hour := t / 60 % 24
  let loadFactor0 := baseLoadFactor hour
  let loadFactor1 := loadFactor0 * r.jitter
  let loadFactor := min (max loadFactor1 0.2) 1
  let currentLoadFactor := loadFactor * ab
  let intervalHours : ℚ := (interval : ℚ) / 60
  let activeEnergyImport :=
    st.cumulativeEnergyImport + currentLoadFactor * 2.5 * intervalHours
  let exportFactor : ℚ := if 0.7 < r.exportDraw then 0.3 else 0
  let activeEnergyExport :=
    st.cumulativeEnergyExport + exportFactor * 1.5 * intervalHours
  let reactiveEnergyImport := activeEnergyImport * 0.15
  let reactiveEnergyExport := activeEnergyExport * 0.1
  let voltagePhase1 := 230.0 * r.voltU1
  let voltagePhase2 := 230.0 * r.voltU2
  let voltagePhase3 := 230.0 * r.voltU3
  let currentPhase1 := 100.0 * currentLoadFactor * r.currU1
  let currentPhase2 := 100.0 * currentLoadFactor * r.currU2
  let currentPhase3 := 100.0 * currentLoadFactor * r.currU3
  let powerFactor := r.pfDraw
  let currentDemand := currentLoadFactor * 100.0 * 230.0 / 1000
  let maxDemand := max st.maxDemand (currentDemand * 0.8)
  { state := ⟨activeEnergyImport, activeEnergyExport, maxDemand⟩
    meas :=
      ⟨meterId, t,
       activeEnergyImport, reactiveEnergyImport,
       activeEnergyExport, reactiveEnergyExport,
       voltagePhase1, voltagePhase2, voltagePhase3,
       currentPhase1, currentPhase2, currentPhase3,
       maxDemand, powerFactor⟩
    events := anomalyEvents meterId t ab r ++ backgroundEvents meterId t r }

/-- The per-meter `while current_time <= end` loop (source lines 63-166):
`i` is the step number (indexing the draw stream), `t` the current time in
minutes.  The extra `0 < interval` in the guard makes the definition total;
see the header comment. -/
def runMeterAux (meterId interval endT : ℕ) (ab : ℚ) (draws : ℕ → StepRand)
    (i t : ℕ) (st : MeterState) : List Measurement × List Event :=
  if h : t ≤ endT ∧ 0 < interval then
    let o := runStep meterId interval ab t (draws i) st
    let rest := runMeterAux meterId interval endT ab draws (i + 1)
        (t + interval) o.state
    (o.meas :: rest.1, o.events ++ rest.2)
  else ([], [])
termination_by endT + 1 - t
decreasing_by omega

/-- One meter's full series (source lines 52-166): fresh accumulators, the
abnormality factor drawn once, then the time loop from `start`. -/
def runMeter (meterId start endT interval : ℕ) (mr : MeterRand) :
    List Measurement × List Event :=
  runMeterAux meterId interval endT (abnormalityFactor mr) mr.stepDraws
    0 start MeterState.init

/-- The whole generator `generate_smart_meter_data` (source lines 6-172)
after date parsing: meters are processed in order, all rows appended to two
shared growing lists, here the concatenation of the per-meter lists.  The
oracle `mrs` supplies each meter's random draws. -/
def generateSmartMeterData (numMeters start endT interval : ℕ)
    (mrs : ℕ → MeterRand) : List Measurement × List Event :=
  let runs := (List.range numMeters).map
    (fun i => runMeter i start endT interval (mrs i))
  ((runs.map Prod.fst).flatten, (runs.map Prod.snd).flatten)

/-! ### Step-level lemmas -/

theorem runStep_meas_meterId (meterId interval : ℕ) (ab : ℚ) (t : ℕ)
    (r : StepRand) (st : MeterState) :
    (runStep meterId interval ab t r st).meas.meterId = meterId := rfl

theorem runStep_meas_timestamp (meterId interval : ℕ) (ab : ℚ) (t : ℕ)
    (r : StepRand) (st : MeterState) :
    (runStep meterId interval ab t r st).meas.timestamp = t := rfl

theorem runStep_meas_state_import (meterId interval : ℕ) (ab : ℚ) (t : ℕ)
    (r : StepRand) (st : MeterState) :
    (runStep meterId interval ab t r st).meas.activeEnergyImportKwh
      = (runStep meterId interval ab t r st).state.cumulativeEnergyImport :=
  rfl

theorem runStep_meas_state_export (meterId interval : ℕ) (ab : ℚ) (t : ℕ)
    (r : StepRand) (st : MeterState) :
    (runStep meterId interval ab t r st).meas.activeEnergyExportKwh
      = (runStep meterId interval ab t r st).state.cumulativeEnergyExport :=
  rfl

theorem runStep_meas_state_demand (meterId interval : ℕ) (ab : ℚ) (t : ℕ)
    (r : StepRand) (st : MeterState) :
    (runStep meterId interval ab t r st).meas.maximumDemandKw
      = (runStep meterId interval ab t r st).state.maxDemand := rfl

theorem runStep_reactive_import (meterId interval : ℕ) (ab : ℚ) (t : ℕ)
    (r : StepRand) (st : MeterState) :
    (runStep meterId interval ab t r st).meas.reactiveEnergyImportKvarh
      = 0.15 * (runStep meterId interval ab t r st).meas.activeEnergyImportKwh := by
  have h : (runStep meterId interval ab t r st).meas.reactiveEnergyImportKvarh
      = (runStep meterId interval ab t r st).meas.activeEnergyImportKwh * 0.15 :=
    rfl
  rw [h, mul_comm]

theorem runStep_reactive_export (meterId interval : ℕ) (ab : ℚ) (t : ℕ)
    (r : StepRand) (st : MeterState) :
    (runStep meterId interval ab t r st).meas.reactiveEnergyExportKvarh
      = 0.1 * (runStep meterId interval ab t r st).meas.activeEnergyExportKwh := by
  have h : (runStep meterId interval ab t r st).meas.reactiveEnergyExportKvarh
      = (runStep meterId interval ab t r st).meas.activeEnergyExportKwh * 0.1 :=
    rfl
  rw [h, mul_comm]

/-- The clamped load factor of a step is at least 0.2, whatever the jitter
draw: `min (max x 0.2) 1` is squeezed between 0.2 and 1. -/
theorem clampedLoadFactor_nonneg (x : ℚ) : (0 : ℚ) ≤ min (max x 0.2) 1 := by
  have h1 : (0.2 : ℚ) ≤ max x 0.2 := le_max_right _ _
  have h2 : (0.2 : ℚ) ≤ min (max x 0.2) 1 := le_min h1 (by norm_num)
  linarith

/-- With a nonnegative abnormality factor, one step never decreases any of
the three accumulators (source lines 88-94 add nonnegative increments,
line 115 takes a `max`). -/
theorem runStep_state_mono (meterId interval : ℕ) (ab : ℚ) (t : ℕ)
    (r : StepRand) (st : MeterState) (hab : 0 ≤ ab) :
    st.cumulativeEnergyImport
        ≤ (runStep meterId interval ab t r st).state.cumulativeEnergyImport ∧
    st.cumulativeEnergyExport
        ≤ (runStep meterId interval ab t r st).state.cumulativeEnergyExport ∧
    st.maxDemand ≤ (runStep meterId interval ab t r st).state.maxDemand := by
  refine ⟨?_, ?_, le_max_left _ _⟩
  · have hlf : (0 : ℚ) ≤ min (max (baseLoadFactor (t / 60 % 24) * r.jitter) 0.2) 1 :=
      clampedLoadFactor_nonneg _
    have hiv : (0 : ℚ) ≤ (interval : ℚ) / 60 := by positivity
    have : (0 : ℚ) ≤ min (max (baseLoadFactor (t / 60 % 24) * r.jitter) 0.2) 1
        * ab * 2.5 * ((interval : ℚ) / 60) := by
      have := mul_nonneg hlf hab
      nlinarith
    simpa [runStep] using this
  · have hef : (0 : ℚ) ≤ (if 0.7 < r.exportDraw then (0.3 : ℚ) else 0) := by
      split <;> norm_num
    have hiv : (0 : ℚ) ≤ (interval : ℚ) / 60 := by positivity
    have : (0 : ℚ) ≤ (if 0.7 < r.exportDraw then (0.3 : ℚ) else 0) * 1.5
        * ((interval : ℚ) / 60) := by positivity
    simpa [runStep] using this

/-- Voltage and power-factor bounds of one step's measurement, from the
uniform-draw ranges: `230 × [0.98, 1.02] = [225.4, 234.6]` (source lines
101-103) and power factor directly in `[0.92, 0.99]` (line 111). -/
theorem runStep_meas_bounds (meterId interval : ℕ) (ab : ℚ) (t : ℕ)
    (r : StepRand) (st : MeterState) (hr : r.Valid) :
    225.4 ≤ (runStep meterId interval ab t r st).meas.voltagePhase1V ∧
    (runStep meterId interval ab t r st).meas.voltagePhase1V ≤ 234.6 ∧
    225.4 ≤ (runStep meterId interval ab t r st).meas.voltagePhase2V ∧
    (runStep meterId interval ab t r st).meas.voltagePhase2V ≤ 234.6 ∧
    225.4 ≤ (runStep meterId interval ab t r st).meas.voltagePhase3V ∧
    (runStep meterId interval ab t r st).meas.voltagePhase3V ≤ 234.6 ∧
    0.92 ≤ (runStep meterId interval ab t r st).meas.powerFactor ∧
    (runStep meterId interval ab t r st).meas.powerFactor ≤ 0.99 := by
  obtain ⟨-, -, -, -, hv1l, hv1u, hv2l, hv2u, hv3l, hv3u, -, -, -, -, -, -,
    hpfl, hpfu, -⟩ := hr
  refine ⟨?_, ?_, ?_, ?_, ?_, ?_, hpfl, hpfu⟩ <;>
    · show _ ≤ _
      simp only [runStep]
      linarith

/-- A step appends at most one anomaly event (source lines 130-144). -/
theorem anomalyEvents_length_le (meterId t : ℕ) (ab : ℚ) (r : StepRand) :
    (anomalyEvents meterId t ab r).length ≤ 1 := by
  unfold anomalyEvents; split
  · split
    · simp
    · split
      · simp
      · split <;> simp
  · simp

/-- A step appends at most one background event (source lines 147-163). -/
theorem backgroundEvents_length_le (meterId t : ℕ) (r : StepRand) :
    (backgroundEvents meterId t r).length ≤ 1 := by
  unfold backgroundEvents; split <;> simp

/-- One step appends at most two events: at most one anomaly event and at
most one background event (source lines 130-163). -/
theorem runStep_events_len (meterId interval : ℕ) (ab : ℚ) (t : ℕ)
    (r : StepRand) (st : MeterState) :
    (runStep meterId interval ab t r st).events.length ≤ 2 := by
  show (anomalyEvents meterId t ab r ++ backgroundEvents meterId t r).length ≤ 2
  rw [List.length_append]
  have h1 := anomalyEvents_length_le meterId t ab r
  have h2 := backgroundEvents_length_le meterId t r
  omega

/-- Every event appended by one step carries that step's meter id and
timestamp (source lines 144 and 163). -/
theorem runStep_events_fields (meterId interval : ℕ) (ab : ℚ) (t : ℕ)
    (r : StepRand) (st : MeterState) :
    ∀ e ∈ (runStep meterId interval ab t r st).events,
      e.meterId = meterId ∧ e.timestamp = t := by
  intro e he
  have he' : e ∈ anomalyEvents meterId t ab r ++ backgroundEvents meterId t r :=
    he
  rcases List.mem_append.1 he' with h | h
  · unfold anomalyEvents at h
    split at h
    · split at h
      · simp_all
      · split at h
        · simp_all
        · split at h <;> simp_all
    · simp at h
  · unfold backgroundEvents at h
    split at h <;> simp_all

/-! ### Per-meter loop lemmas -/

/-- Number of iterations of the `while current_time <= end` loop: one
measurement per step, `(endT - t) / interval + 1` steps when `t ≤ endT`,
none otherwise. -/
theorem runMeterAux_length (meterId interval endT : ℕ) (ab : ℚ)
    (draws : ℕ → StepRand) (i t : ℕ) (st : MeterState) (hiv : 0 < interval) :
    (runMeterAux meterId interval endT ab draws i t st).1.length
      = if t ≤ endT then (endT - t) / interval + 1 else 0 := by
  induction i, t, st using runMeterAux.induct meterId interval endT ab draws with
  | case1 i t st h o ih =>
    have ho : o = runStep meterId interval ab t (draws i) st := rfl
    rw [runMeterAux]
    simp only [dif_pos h, List.length_cons, ← ho, ih]
    rcases h with ⟨hle, hpos⟩
    by_cases h2 : t + interval ≤ endT
    · rw [if_pos h2, if_pos hle]
      have he : endT - t = (endT - (t + interval)) + interval := by omega
      rw [he, Nat.add_div_right _ hpos]
    · rw [if_neg h2, if_pos hle]
      have hlt : endT - t < interval := by omega
      rw [Nat.div_eq_of_lt hlt]
  | case2 i t st h =>
    rw [runMeterAux]
    simp only [dif_neg h]
    have hn : ¬ t ≤ endT := fun hle => h ⟨hle, hiv⟩
    rw [if_neg hn]
    rfl

/-- Facts true of every measurement the loop emits: it carries the meter's
id, a timestamp no earlier than the loop's current time, and reactive
energies exactly 0.15 resp. 0.1 times the active energies. -/
theorem runMeterAux_meas_mem (meterId interval endT : ℕ) (ab : ℚ)
    (draws : ℕ → StepRand) (i t : ℕ) (st : MeterState) :
    ∀ m ∈ (runMeterAux meterId interval endT ab draws i t st).1,
      m.meterId = meterId ∧ t ≤ m.timestamp ∧
      m.reactiveEnergyImportKvarh = 0.15 * m.activeEnergyImportKwh ∧
      m.reactiveEnergyExportKvarh = 0.1 * m.activeEnergyExportKwh := by
  induction i, t, st using runMeterAux.induct meterId interval endT ab draws with
  | case1 i t st h o ih =>
    have ho : o = runStep meterId interval ab t (draws i) st := rfl
    intro m hm
    rw [runMeterAux] at hm
    simp only [dif_pos h, ← ho] at hm
    rcases List.mem_cons.1 hm with rfl | hm'
    · rw [ho]
      exact ⟨runStep_meas_meterId _ _ _ _ _ _,
        le_of_eq (runStep_meas_timestamp _ _ _ _ _ _).symm,
        runStep_reactive_import _ _ _ _ _ _,
        runStep_reactive_export _ _ _ _ _ _⟩
    · obtain ⟨h1, h2, h3⟩ := ih m hm'
      exact ⟨h1, le_trans (Nat.le_add_right t interval) h2, h3⟩
  | case2 i t st h =>
    intro m hm
    rw [runMeterAux] at hm
    simp only [dif_neg h] at hm
    simp at hm

/-- With valid per-step draws, every measurement's voltages lie in
`[225.4, 234.6]` and its power factor in `[0.92, 0.99]`. -/
theorem runMeterAux_meas_bounds (meterId interval endT : ℕ) (ab : ℚ)
    (draws : ℕ → StepRand) (i t : ℕ) (st : MeterState)
    (hv : ∀ n, (draws n).Valid) :
    ∀ m ∈ (runMeterAux meterId interval endT ab draws i t st).1,
      225.4 ≤ m.voltagePhase1V ∧ m.voltagePhase1V ≤ 234.6 ∧
      225.4 ≤ m.voltagePhase2V ∧ m.voltagePhase2V ≤ 234.6 ∧
      225.4 ≤ m.voltagePhase3V ∧ m.voltagePhase3V ≤ 234.6 ∧
      0.92 ≤ m.powerFactor ∧ m.powerFactor ≤ 0.99 := by
  induction i, t, st using runMeterAux.induct meterId interval endT ab draws with
  | case1 i t st h o ih =>
    have ho : o = runStep meterId interval ab t (draws i) st := rfl
    intro m hm
    rw [runMeterAux] at hm
    simp only [dif_pos h, ← ho] at hm
    rcases List.mem_cons.1 hm with rfl | hm'
    · rw [ho]
      exact runStep_meas_bounds _ _ _ _ _ _ (hv i)
    · exact ih m hm'
  | case2 i t st h =>
    intro m hm
    rw [runMeterAux] at hm
    simp only [dif_neg h] at hm
    simp at hm

/-- Every event the loop emits carries the meter's id, a timestamp no
earlier than the loop's current time, and shares its `(meter_id, timestamp)`
pair with some emitted measurement. -/
theorem runMeterAux_event_mem (meterId interval endT : ℕ) (ab : ℚ)
    (draws : ℕ → StepRand) (i t : ℕ) (st : MeterState) :
    ∀ e ∈ (runMeterAux meterId interval endT ab draws i t st).2,
      e.meterId = meterId ∧ t ≤ e.timestamp ∧
      ∃ m ∈ (runMeterAux meterId interval endT ab draws i t st).1,
        m.meterId = e.meterId ∧ m.timestamp = e.timestamp := by
  induction i, t, st using runMeterAux.induct meterId interval endT ab draws with
  | case1 i t st h o ih =>
    have ho : o = runStep meterId interval ab t (draws i) st := rfl
    intro e he
    rw [runMeterAux] at he ⊢
    simp only [dif_pos h, ← ho] at he ⊢
    rcases List.mem_append.1 he with he' | he'
    · obtain ⟨h1, h2⟩ := runStep_events_fields meterId interval ab t (draws i) st
        e (ho ▸ he')
      exact ⟨h1, le_of_eq h2.symm,
        o.meas, List.mem_cons_self _ _,
        by rw [ho, runStep_meas_meterId, runStep_meas_timestamp, h1, h2]
           exact ⟨rfl, rfl⟩⟩
    · obtain ⟨h1, h2, m, hm, h3⟩ := ih e he'
      exact ⟨h1, le_trans (Nat.le_add_right t interval) h2,
        m, List.mem_cons_of_mem _ hm, h3⟩
  | case2 i t st h =>
    intro e he
    rw [runMeterAux] at he
    simp only [dif_neg h] at he
    simp at he

/-- A list of events that all share one timestamp is chained by
non-decreasing timestamps. -/
theorem chain'_timestamp_of_const (c : ℕ) :
    ∀ (l : List Event), (∀ e ∈ l, e.timestamp = c) →
      List.Chain' (fun a b : Event => a.timestamp ≤ b.timestamp) l := by
  intro l
  induction l with
  | nil => intro _; simp
  | cons a l ih =>
    intro hl
    rw [List.chain'_cons']
    refine ⟨fun y hy => ?_, ih fun e he => hl e (List.mem_cons_of_mem _ he)⟩
    rw [hl a (List.mem_cons_self _ _),
      hl y (List.mem_cons_of_mem _ (List.mem_of_mem_head? hy))]

/-- Within one meter, measurement timestamps are produced in non-decreasing
order (the loop advances time by `interval` each step). -/
theorem runMeterAux_fst_chain (meterId interval endT : ℕ) (ab : ℚ)
    (draws : ℕ → StepRand) (i t : ℕ) (st : MeterState) :
    List.Chain' (fun a b : Measurement => a.timestamp ≤ b.timestamp)
      (runMeterAux meterId interval endT ab draws i t st).1 := by
  induction i, t, st using runMeterAux.induct meterId interval endT ab draws with
  | case1 i t st h o ih =>
    have ho : o = runStep meterId interval ab t (draws i) st := rfl
    rw [runMeterAux]
    simp only [dif_pos h, ← ho]
    rw [List.chain'_cons']
    refine ⟨fun y hy => ?_, ih⟩
    have hy' := (runMeterAux_meas_mem meterId interval endT ab draws (i + 1)
      (t + interval) o.state y (List.mem_of_mem_head? hy)).2.1
    have hts : o.meas.timestamp = t := by
      rw [ho, runStep_meas_timestamp]
    omega
  | case2 i t st h =>
    rw [runMeterAux]
    simp only [dif_neg h]
    simp

/-- Within one meter, event timestamps are produced in non-decreasing
order: a step's 0-2 events share the step's timestamp, and later steps are
later in time. -/
theorem runMeterAux_snd_chain (meterId interval endT : ℕ) (ab : ℚ)
    (draws : ℕ → StepRand) (i t : ℕ) (st : MeterState) :
    List.Chain' (fun a b : Event => a.timestamp ≤ b.timestamp)
      (runMeterAux meterId interval endT ab draws i t st).2 := by
  induction i, t, st using runMeterAux.induct meterId interval endT ab draws with
  | case1 i t st h o ih =>
    have ho : o = runStep meterId interval ab t (draws i) st := rfl
    rw [runMeterAux]
    simp only [dif_pos h, ← ho]
    refine List.Chain'.append ?_ ih ?_
    · exact chain'_timestamp_of_const t o.events
        (fun e he => (runStep_events_fields meterId interval ab t (draws i) st
          e (ho ▸ he)).2)
    · intro x hx y hy
      have hxt : x.timestamp = t :=
        (runStep_events_fields meterId interval ab t (draws i) st x
          (ho ▸ List.mem_of_mem_getLast? hx)).2
      have hyt := (runMeterAux_event_mem meterId interval endT ab draws (i + 1)
        (t + interval) o.state y (List.mem_of_mem_head? hy)).2.1
      omega
  | case2 i t st h =>
    rw [runMeterAux]
    simp only [dif_neg h]
    simp

/-- Per meter, at most two events are emitted per measurement. -/
theorem runMeterAux_events_le (meterId interval endT : ℕ) (ab : ℚ)
    (draws : ℕ → StepRand) (i t : ℕ) (st : MeterState) :
    (runMeterAux meterId interval endT ab draws i t st).2.length
      ≤ 2 * (runMeterAux meterId interval endT ab draws i t st).1.length := by
  induction i, t, st using runMeterAux.induct meterId interval endT ab draws with
  | case1 i t st h o ih =>
    have ho : o = runStep meterId interval ab t (draws i) st := rfl
    rw [runMeterAux]
    simp only [dif_pos h, ← ho, List.length_append, List.length_cons]
    have hev : o.events.length ≤ 2 := by
      rw [ho]; exact runStep_events_len meterId interval ab t (draws i) st
    omega
  | case2 i t st h =>
    rw [runMeterAux]
    simp only [dif_neg h]
    simp

/-- With a nonnegative abnormality factor the loop's measurements have
non-decreasing cumulative import energy, export energy and maximum demand,
and all three fields dominate the incoming accumulator values. -/
theorem runMeterAux_mono (meterId interval endT : ℕ) (ab : ℚ)
    (draws : ℕ → StepRand) (i t : ℕ) (st : MeterState) (hab : 0 ≤ ab) :
    List.Chain' (fun a b : Measurement =>
        a.activeEnergyImportKwh ≤ b.activeEnergyImportKwh ∧
        a.activeEnergyExportKwh ≤ b.activeEnergyExportKwh ∧
        a.maximumDemandKw ≤ b.maximumDemandKw)
      (runMeterAux meterId interval endT ab draws i t st).1 ∧
    ∀ m ∈ (runMeterAux meterId interval endT ab draws i t st).1,
      st.cumulativeEnergyImport ≤ m.activeEnergyImportKwh ∧
      st.cumulativeEnergyExport ≤ m.activeEnergyExportKwh ∧
      st.maxDemand ≤ m.maximumDemandKw := by
  induction i, t, st using runMeterAux.induct meterId interval endT ab draws with
  | case1 i t st h o ih =>
    have ho : o = runStep meterId interval ab t (draws i) st := rfl
    have hstep := runStep_state_mono meterId interval ab t (draws i) st hab
    have hmi : o.meas.activeEnergyImportKwh = o.state.cumulativeEnergyImport := by
      rw [ho]; exact runStep_meas_state_import _ _ _ _ _ _
    have hme : o.meas.activeEnergyExportKwh = o.state.cumulativeEnergyExport := by
      rw [ho]; exact runStep_meas_state_export _ _ _ _ _ _
    have hmd : o.meas.maximumDemandKw = o.state.maxDemand := by
      rw [ho]; exact runStep_meas_state_demand _ _ _ _ _ _
    rw [runMeterAux]
    simp only [dif_pos h, ← ho]
    constructor
    · rw [List.chain'_cons']
      refine ⟨fun y hy => ?_, ih.1⟩
      obtain ⟨h1, h2, h3⟩ := ih.2 y (List.mem_of_mem_head? hy)
      rw [hmi, hme, hmd]
      exact ⟨h1, h2, h3⟩
    · intro m hm
      rcases List.mem_cons.1 hm with rfl | hm'
      · rw [hmi, hme, hmd, ho]
        exact hstep
      · obtain ⟨h1, h2, h3⟩ := ih.2 m hm'
        rw [← ho] at hstep
        exact ⟨le_trans hstep.1 h1, le_trans hstep.2.1 h2,
          le_trans hstep.2.2 h3⟩
  | case2 i t st h =>
    rw [runMeterAux]
    simp only [dif_neg h]
    simp

/-! ### Lifting from one meter to the whole output -/

/-- A flatten over `List.range n` in which every block except block `i` is
empty collapses to block `i`. -/
theorem flatten_range_eq_single {α : Type} (g : ℕ → List α) :
    ∀ n i : ℕ, i < n → (∀ j < n, j ≠ i → g j = []) →
      ((List.range n).map g).flatten = g i := by
  intro n
  induction n with
  | zero => intro i hi _; omega
  | succ m ih =>
    intro i hi hz
    rw [List.range_succ, List.map_append, List.flatten_append]
    simp only [List.map_cons, List.map_nil, List.flatten_cons, List.flatten_nil,
      List.append_nil]
    by_cases him : i = m
    · subst him
      have hpre : ((List.range i).map g).flatten = [] := by
        rw [List.flatten_eq_nil_iff]
        intro l hl
        obtain ⟨j, hj, rfl⟩ := List.mem_map.1 hl
        rw [List.mem_range] at hj
        exact hz j (by omega) (by omega)
      rw [hpre, List.nil_append]
    · have hi' : i < m := by omega
      rw [ih i hi' (fun j hj hne => hz j (by omega) hne),
        hz m (by omega) (fun hc => him hc.symm), List.append_nil]

/-- A list whose elements all carry primary key `c`, chained by secondary
key, is chained by the (primary, secondary) lexicographic order. -/
theorem chain'_lex_of_const_fst {α : Type} (key : α → ℕ × ℕ) (c : ℕ) :
    ∀ l : List α, (∀ a ∈ l, (key a).1 = c) →
      List.Chain' (fun a b => (key a).2 ≤ (key b).2) l →
      List.Chain' (fun a b => (key a).1 < (key b).1 ∨
        ((key a).1 = (key b).1 ∧ (key a).2 ≤ (key b).2)) l := by
  intro l
  induction l with
  | nil => intro _ _; simp
  | cons a l ihl =>
    intro hm hc
    rw [List.chain'_cons'] at hc ⊢
    refine ⟨fun y hy => Or.inr ⟨?_, hc.1 y hy⟩,
      ihl (fun b hb => hm b (List.mem_cons_of_mem _ hb)) hc.2⟩
    rw [hm a (List.mem_cons_self _ _),
      hm y (List.mem_cons_of_mem _ (List.mem_of_mem_head? hy))]

/-- Flattening blocks whose elements carry their block index as primary key,
each block internally sorted by secondary key, yields a list sorted by the
(primary, secondary) lexicographic order. -/
theorem chain'_flatten_grouped {α : Type} (key : α → ℕ × ℕ) (g : ℕ → List α) :
    ∀ n : ℕ, (∀ j < n, ∀ a ∈ g j, (key a).1 = j) →
      (∀ j < n, List.Chain' (fun a b => (key a).2 ≤ (key b).2) (g j)) →
      List.Chain' (fun a b => (key a).1 < (key b).1 ∨
          ((key a).1 = (key b).1 ∧ (key a).2 ≤ (key b).2))
        (((List.range n).map g).flatten) := by
  intro n
  induction n with
  | zero => intro _ _; simp
  | succ m ih =>
    intro hid hch
    rw [List.range_succ, List.map_append, List.flatten_append]
    simp only [List.map_cons, List.map_nil, List.flatten_cons, List.flatten_nil,
      List.append_nil]
    refine List.Chain'.append
      (ih (fun j hj => hid j (by omega)) (fun j hj => hch j (by omega))) ?_ ?_
    · exact chain'_lex_of_const_fst key m (g m) (hid m (by omega))
        (hch m (by omega))
    · intro x hx y hy
      have hxm : x ∈ ((List.range m).map g).flatten :=
        List.mem_of_mem_getLast? hx
      obtain ⟨l, hl, hxl⟩ := List.mem_flatten.1 hxm
      obtain ⟨j, hj, rfl⟩ := List.mem_map.1 hl
      rw [List.mem_range] at hj
      left
      rw [hid j (by omega) x hxl,
        hid m (by omega) y (List.mem_of_mem_head? hy)]
      exact hj

/-- Unpacking membership in the measurements output: every measurement comes
from some meter's run. -/
theorem mem_generate_fst {numMeters s e iv : ℕ} {mrs : ℕ → MeterRand}
    {m : Measurement}
    (hm : m ∈ (generateSmartMeterData numMeters s e iv mrs).1) :
    ∃ j < numMeters, m ∈ (runMeter j s e iv (mrs j)).1 := by
  unfold generateSmartMeterData at hm
  simp only [List.map_map] at hm
  obtain ⟨l, hl, hml⟩ := List.mem_flatten.1 hm
  obtain ⟨j, hj, rfl⟩ := List.mem_map.1 hl
  rw [List.mem_range] at hj
  exact ⟨j, hj, hml⟩

/-- Unpacking membership in the events output: every event comes from some
meter's run. -/
theorem mem_generate_snd {numMeters s e iv : ℕ} {mrs : ℕ → MeterRand}
    {ev : Event}
    (hev : ev ∈ (generateSmartMeterData numMeters s e iv mrs).2) :
    ∃ j < numMeters, ev ∈ (runMeter j s e iv (mrs j)).2 := by
  unfold generateSmartMeterData at hev
  simp only [List.map_map] at hev
  obtain ⟨l, hl, hml⟩ := List.mem_flatten.1 hev
  obtain ⟨j, hj, rfl⟩ := List.mem_map.1 hl
  rw [List.mem_range] at hj
  exact ⟨j, hj, hml⟩

/-- Conversely, every measurement of a processed meter's run is in the
measurements output. -/
theorem generate_fst_mem {numMeters s e iv : ℕ} {mrs : ℕ → MeterRand}
    {m : Measurement} {j : ℕ} (hj : j < numMeters)
    (hm : m ∈ (runMeter j s e iv (mrs j)).1) :
    m ∈ (generateSmartMeterData numMeters s e iv mrs).1 := by
  unfold generateSmartMeterData
  simp only [List.map_map]
  refine List.mem_flatten.2 ⟨(runMeter j s e iv (mrs j)).1, ?_, hm⟩
  exact List.mem_map.2 ⟨j, List.mem_range.2 hj, rfl⟩

/-- Selecting the measurements whose `meter_id` is the `i`-th generated id
recovers exactly the `i`-th meter's run, in order. -/
theorem generate_fst_filter (numMeters s e iv : ℕ) (mrs : ℕ → MeterRand)
    (i : ℕ) (hi : i < numMeters) :
    (generateSmartMeterData numMeters s e iv mrs).1.filter
        (fun m => m.meterId == i)
      = (runMeter i s e iv (mrs i)).1 := by
  unfold generateSmartMeterData
  simp only [List.map_map]
  rw [List.filter_flatten, List.map_map]
  have hcal : ∀ j, (List.filter (fun m => m.meterId == i) ∘
      (Prod.fst ∘ fun k => runMeter k s e iv (mrs k))) j
      = ((runMeter j s e iv (mrs j)).1.filter (fun m => m.meterId == i)) :=
    fun j => rfl
  have hz : ∀ j < numMeters, j ≠ i →
      (List.filter (fun m => m.meterId == i) ∘
        (Prod.fst ∘ fun k => runMeter k s e iv (mrs k))) j = [] := by
    intro j _ hne
    rw [hcal j, List.filter_eq_nil_iff]
    intro m hm
    have hid := (runMeterAux_meas_mem j iv e (abnormalityFactor (mrs j))
      (mrs j).stepDraws 0 s MeterState.init m hm).1
    simp [hid, hne]
  have hself : (List.filter (fun m => m.meterId == i) ∘
      (Prod.fst ∘ fun k => runMeter k s e iv (mrs k))) i
      = (runMeter i s e iv (mrs i)).1 := by
    rw [hcal i, List.filter_eq_self]
    intro m hm
    have hid := (runMeterAux_meas_mem i iv e (abnormalityFactor (mrs i))
      (mrs i).stepDraws 0 s MeterState.init m hm).1
    simp [hid]
  rw [flatten_range_eq_single _ numMeters i hi hz, hself]

/-- The abnormality factor of any valid meter draw is nonnegative (it is 1
or a uniform draw from `[0.7, 1.3]`). -/
theorem abnormalityFactor_nonneg {mr : MeterRand} (hv : mr.Valid) :
    0 ≤ abnormalityFactor mr := by
  obtain ⟨-, -, h1, -, -⟩ := hv
  unfold abnormalityFactor
  split
  · norm_num
  · linarith

/-- If the end instant is before the start instant, every meter's loop exits
immediately and both outputs are empty. -/
theorem generate_inverted_aux (numMeters s e iv : ℕ) (mrs : ℕ → MeterRand)
    (h : e < s) :
    generateSmartMeterData numMeters s e iv mrs = ([], []) := by
  have hrun : ∀ j, runMeter j s e iv (mrs j) = ([], []) := by
    intro j
    unfold runMeter
    rw [runMeterAux]
    rw [dif_neg (fun hc => absurd hc.1 (by omega))]
  have h1 : (generateSmartMeterData numMeters s e iv mrs).1 = [] := by
    show (((List.range numMeters).map
      (fun i => runMeter i s e iv (mrs i))).map Prod.fst).flatten = []
    rw [List.flatten_eq_nil_iff]
    intro l hl
    obtain ⟨x, hx, rfl⟩ := List.mem_map.1 hl
    obtain ⟨j, _, rfl⟩ := List.mem_map.1 hx
    rw [hrun j]
  have h2 : (generateSmartMeterData numMeters s e iv mrs).2 = [] := by
    show (((List.range numMeters).map
      (fun i => runMeter i s e iv (mrs i))).map Prod.snd).flatten = []
    rw [List.flatten_eq_nil_iff]
    intro l hl
    obtain ⟨x, hx, rfl⟩ := List.mem_map.1 hl
    obtain ⟨j, _, rfl⟩ := List.mem_map.1 hx
    rw [hrun j]
  rw [Prod.ext_iff]
  exact ⟨h1, h2⟩

/-! ### Concrete oracles for instantiating the theorems -/

/-- A fixed, in-range assignment of one step's random draws, used to
instantiate the theorems on concrete inputs. -/
def fixedStepRand : StepRand :=
  { jitter := 1, exportDraw := 0.8, voltU1 := 1, voltU2 := 1, voltU3 := 1,
    currU1 := 1, currU2 := 1, currU3 := 1, pfDraw := 0.95,
    anomalyDraw := 0.99, anomalyCoin := 0.99, bgDraw := 0.5,
    bgChoice := 0, tempDraw := 50 }

/-- A fixed meter oracle: the abnormality draw lands at 0.2 (≤ 0.3), so the
meter gets abnormality factor `abUniform = 1.3`; every step then draws
`fixedStepRand`, whose anomaly trigger 0.99 exceeds 0.95. -/
def fixedMeterRand : MeterRand :=
  { abDraw := 0.2, abUniform := 1.3, stepDraws := fun _ => fixedStepRand }

theorem fixedStepRand_valid : fixedStepRand.Valid := by
  refine ⟨?_, ?_, ?_, ?_, ?_, ?_, ?_, ?_, ?_, ?_, ?_, ?_, ?_, ?_, ?_, ?_,
    ?_, ?_, ?_, ?_, ?_, ?_, ?_⟩ <;> norm_num [fixedStepRand, eventTypeList]

theorem fixedMeterRand_valid : fixedMeterRand.Valid := by
  refine ⟨by norm_num [fixedMeterRand], by norm_num [fixedMeterRand],
    by norm_num [fixedMeterRand], by norm_num [fixedMeterRand],
    fun n => fixedStepRand_valid⟩

/-! ### The claims -/

/-- C1: for every meter, when `end ≥ start` the number of measurement
records generated for that meter equals `⌊(end - start) / interval⌋ + 1`
(in particular exactly 1 when `start = end`), and 0 when `start > end`;
for all positive `interval_minutes`. -/
theorem measurement_count_per_meter (numMeters s e iv : ℕ)
    (mrs : ℕ → MeterRand) (hiv : 0 < iv) (i : ℕ) (hi : i < numMeters) :
    ((generateSmartMeterData numMeters s e iv mrs).1.filter
        (fun m => m.meterId == i)).length
      = if s ≤ e then (e - s) / iv + 1 else 0 := by
  rw [generate_fst_filter numMeters s e iv mrs i hi]
  exact runMeterAux_length i iv e (abnormalityFactor (mrs i))
    (mrs i).stepDraws 0 s MeterState.init hiv

/-- Witness for `measurement_count_per_meter`: one meter over the range
`[0, 60]` minutes at a 30-minute interval, giving `60 / 30 + 1 = 3`
measurements. -/
theorem measurement_count_per_meter_witness :
    ((generateSmartMeterData 1 0 60 30 (fun _ => fixedMeterRand)).1.filter
        (fun m => m.meterId == 0)).length
      = if (0 : ℕ) ≤ 60 then (60 - 0) / 30 + 1 else 0 :=
  measurement_count_per_meter 1 0 60 30 (fun _ => fixedMeterRand)
    (by norm_num) 0 (by norm_num)

/-- C2: for every input with `start > end`, the generator returns 0
measurement records and 0 event records; it is a total function, so no
error is raised. -/
theorem inverted_range_yields_empty (numMeters s e iv : ℕ)
    (mrs : ℕ → MeterRand) (h : e < s) :
    generateSmartMeterData numMeters s e iv mrs = ([], []) :=
  generate_inverted_aux numMeters s e iv mrs h

/-- Witness for `inverted_range_yields_empty`: start at minute 10, end at
minute 0. -/
theorem inverted_range_yields_empty_witness :
    generateSmartMeterData 3 10 0 15 (fun _ => fixedMeterRand) = ([], []) :=
  inverted_range_yields_empty 3 10 0 15 (fun _ => fixedMeterRand)
    (by norm_num)

/-- C3 counterexample: the claim says an inverted time range (start > end)
makes the generator fail fast with a descriptive error rather than silently
producing empty output.  The code does the opposite: on the concrete input
`start = 10, end = 0` (with 1 meter, interval 15) the generator returns
normally with both outputs empty — it never rejects an inverted range. -/
theorem inverted_range_not_rejected :
    generateSmartMeterData 1 10 0 15 (fun _ => fixedMeterRand) = ([], []) :=
  generate_inverted_aux 1 10 0 15 (fun _ => fixedMeterRand) (by norm_num)

/-- C3 amended: a logically inverted time range (start > end) is not an
error: the generator silently returns empty output (0 measurements and 0
events) to the caller.  (Malformed date strings fail inside the standard
library's `strptime` before the generation loop is reached; no validation
exists in this repository's code.) -/
theorem inverted_range_silently_empty (numMeters s e iv : ℕ)
    (mrs : ℕ → MeterRand) (h : e < s) :
    (generateSmartMeterData numMeters s e iv mrs).1 = [] ∧
    (generateSmartMeterData numMeters s e iv mrs).2 = [] := by
  have := generate_inverted_aux numMeters s e iv mrs h
  rw [Prod.ext_iff] at this
  exact this

/-- Witness for `inverted_range_silently_empty`. -/
theorem inverted_range_silently_empty_witness :
    (generateSmartMeterData 2 1440 0 30 (fun _ => fixedMeterRand)).1 = [] ∧
    (generateSmartMeterData 2 1440 0 30 (fun _ => fixedMeterRand)).2 = [] :=
  inverted_range_silently_empty 2 1440 0 30 (fun _ => fixedMeterRand)
    (by norm_num)

/-- C4: for every meter, across that meter's consecutive measurement
records in generation order, `active_energy_import_kwh`,
`active_energy_export_kwh` and `maximum_demand_kw` are each non-decreasing
(positive interval, draws from the documented distributions). -/
theorem cumulative_fields_monotone (numMeters s e iv : ℕ)
    (mrs : ℕ → MeterRand) (hiv : 0 < iv) (i : ℕ) (hi : i < numMeters)
    (hv : (mrs i).Valid) :
    List.Chain' (fun a b : Measurement =>
        a.activeEnergyImportKwh ≤ b.activeEnergyImportKwh ∧
        a.activeEnergyExportKwh ≤ b.activeEnergyExportKwh ∧
        a.maximumDemandKw ≤ b.maximumDemandKw)
      ((generateSmartMeterData numMeters s e iv mrs).1.filter
        (fun m => m.meterId == i)) := by
  rw [generate_fst_filter numMeters s e iv mrs i hi]
  exact (runMeterAux_mono i iv e (abnormalityFactor (mrs i))
    (mrs i).stepDraws 0 s MeterState.init (abnormalityFactor_nonneg hv)).1

/-- Witness for `cumulative_fields_monotone`: one meter over `[0, 60]` at a
30-minute interval with the fixed oracle. -/
theorem cumulative_fields_monotone_witness :
    List.Chain' (fun a b : Measurement =>
        a.activeEnergyImportKwh ≤ b.activeEnergyImportKwh ∧
        a.activeEnergyExportKwh ≤ b.activeEnergyExportKwh ∧
        a.maximumDemandKw ≤ b.maximumDemandKw)
      ((generateSmartMeterData 1 0 60 30 (fun _ => fixedMeterRand)).1.filter
        (fun m => m.meterId == 0)) :=
  cumulative_fields_monotone 1 0 60 30 (fun _ => fixedMeterRand)
    (by norm_num) 0 (by norm_num) fixedMeterRand_valid

/-- C5: every measurement record has
`reactive_energy_import_kvarh = 0.15 × active_energy_import_kwh` and
`reactive_energy_export_kvarh = 0.1 × active_energy_export_kwh`, exactly. -/
theorem reactive_energy_exact_scaling (numMeters s e iv : ℕ)
    (mrs : ℕ → MeterRand) :
    ∀ m ∈ (generateSmartMeterData numMeters s e iv mrs).1,
      m.reactiveEnergyImportKvarh = 0.15 * m.activeEnergyImportKwh ∧
      m.reactiveEnergyExportKvarh = 0.1 * m.activeEnergyExportKwh := by
  intro m hm
  obtain ⟨j, hj, hmem⟩ := mem_generate_fst hm
  exact (runMeterAux_meas_mem j iv e (abnormalityFactor (mrs j))
    (mrs j).stepDraws 0 s MeterState.init m hmem).2.2

/-- Witness for `reactive_energy_exact_scaling`: the first measurement of a
one-meter, one-step run satisfies both exact ratios. -/
theorem reactive_energy_exact_scaling_witness :
    ∃ m ∈ (generateSmartMeterData 1 0 0 15 (fun _ => fixedMeterRand)).1,
      m.reactiveEnergyImportKvarh = 0.15 * m.activeEnergyImportKwh ∧
      m.reactiveEnergyExportKvarh = 0.1 * m.activeEnergyExportKwh := by
  have hne : (generateSmartMeterData 1 0 0 15 (fun _ => fixedMeterRand)).1 ≠ [] := by
    simp [generateSmartMeterData, runMeter, runMeterAux]
  exact ⟨_, List.head_mem hne,
    reactive_energy_exact_scaling 1 0 0 15 (fun _ => fixedMeterRand) _
      (List.head_mem hne)⟩

/-- C6: a step emits an anomaly event iff the meter's abnormality factor is
not 1 and the step's anomaly draw exceeds 0.95; then exactly one event is
emitted, typed in fixed order: `VOLTAGE_SWELL` if the factor exceeds 1.2,
else `VOLTAGE_SAG` if below 0.8, else `CURRENT_IMBALANCE` or
`PHASE_FAILURE` by a further 50/50 draw.  The step's events are the anomaly
events followed by the background events. -/
theorem anomaly_event_rule (meterId interval t : ℕ) (ab : ℚ) (r : StepRand)
    (st : MeterState) :
    (runStep meterId interval ab t r st).events
        = anomalyEvents meterId t ab r ++ backgroundEvents meterId t r ∧
    (anomalyEvents meterId t ab r ≠ [] ↔ ab ≠ 1 ∧ 0.95 < r.anomalyDraw) ∧
    ((ab ≠ 1 ∧ 0.95 < r.anomalyDraw) →
      ∃ d, anomalyEvents meterId t ab r =
        [{ meterId := meterId, timestamp := t,
           eventType :=
             if 1.2 < ab then "VOLTAGE_SWELL"
             else if ab < 0.8 then "VOLTAGE_SAG"
             else if 0.5 < r.anomalyCoin then "CURRENT_IMBALANCE"
             else "PHASE_FAILURE",
           eventDescription := d }]) := by
  refine ⟨rfl, ⟨?_, ?_⟩, ?_⟩
  · intro hne
    by_contra hcond
    unfold anomalyEvents at hne
    rw [if_neg hcond] at hne
    exact hne rfl
  · intro hcond
    unfold anomalyEvents
    rw [if_pos hcond]
    split
    · simp
    · split
      · simp
      · split <;> simp
  · intro hcond
    unfold anomalyEvents
    rw [if_pos hcond]
    by_cases h1 : 1.2 < ab
    · simp only [if_pos h1]
      exact ⟨_, rfl⟩
    · simp only [if_neg h1]
      by_cases h2 : ab < 0.8
      · simp only [if_pos h2]
        exact ⟨_, rfl⟩
      · simp only [if_neg h2]
        by_cases h3 : 0.5 < r.anomalyCoin
        · simp only [if_pos h3]
          exact ⟨_, rfl⟩
        · simp only [if_neg h3]
          exact ⟨_, rfl⟩

/-- Witness for `anomaly_event_rule`: abnormality factor 1.3 and anomaly
draw 0.99 emit exactly one `VOLTAGE_SWELL`-shaped event. -/
theorem anomaly_event_rule_witness :
    ∃ d, anomalyEvents 0 0 1.3 fixedStepRand =
      [{ meterId := 0, timestamp := 0,
         eventType :=
           if (1.2 : ℚ) < 1.3 then "VOLTAGE_SWELL"
           else if (1.3 : ℚ) < 0.8 then "VOLTAGE_SAG"
           else if 0.5 < fixedStepRand.anomalyCoin then "CURRENT_IMBALANCE"
           else "PHASE_FAILURE",
         eventDescription := d }] :=
  (anomaly_event_rule 0 15 0 1.3 fixedStepRand MeterState.init).2.2
    ⟨by norm_num, by norm_num [fixedStepRand]⟩

/-- C7: in both output sequences, records are grouped by meter — all
records of one meter precede all records of the next — and within one
meter's group the timestamps are non-decreasing.  Stated as: consecutive
records are related by "strictly smaller meter id, or same id and
non-decreasing timestamp". -/
theorem output_grouped_and_time_ordered (numMeters s e iv : ℕ)
    (mrs : ℕ → MeterRand) (hiv : 0 < iv) :
    List.Chain' (fun a b : Measurement => a.meterId < b.meterId ∨
        (a.meterId = b.meterId ∧ a.timestamp ≤ b.timestamp))
      (generateSmartMeterData numMeters s e iv mrs).1 ∧
    List.Chain' (fun a b : Event => a.meterId < b.meterId ∨
        (a.meterId = b.meterId ∧ a.timestamp ≤ b.timestamp))
      (generateSmartMeterData numMeters s e iv mrs).2 := by
  constructor
  · have h := chain'_flatten_grouped
      (fun m : Measurement => (m.meterId, m.timestamp))
      (fun j => (runMeter j s e iv (mrs j)).1) numMeters
      (fun j _ a ha => (runMeterAux_meas_mem j iv e (abnormalityFactor (mrs j))
        (mrs j).stepDraws 0 s MeterState.init a ha).1)
      (fun j _ => runMeterAux_fst_chain j iv e (abnormalityFactor (mrs j))
        (mrs j).stepDraws 0 s MeterState.init)
    have heq : (generateSmartMeterData numMeters s e iv mrs).1
        = ((List.range numMeters).map
            (fun j => (runMeter j s e iv (mrs j)).1)).flatten := by
      show (((List.range numMeters).map
        (fun i => runMeter i s e iv (mrs i))).map Prod.fst).flatten = _
      rw [List.map_map]
      rfl
    rw [heq]
    exact h
  · have h := chain'_flatten_grouped
      (fun ev : Event => (ev.meterId, ev.timestamp))
      (fun j => (runMeter j s e iv (mrs j)).2) numMeters
      (fun j _ a ha => (runMeterAux_event_mem j iv e (abnormalityFactor (mrs j))
        (mrs j).stepDraws 0 s MeterState.init a ha).1)
      (fun j _ => runMeterAux_snd_chain j iv e (abnormalityFactor (mrs j))
        (mrs j).stepDraws 0 s MeterState.init)
    have heq : (generateSmartMeterData numMeters s e iv mrs).2
        = ((List.range numMeters).map
            (fun j => (runMeter j s e iv (mrs j)).2)).flatten := by
      show (((List.range numMeters).map
        (fun i => runMeter i s e iv (mrs i))).map Prod.snd).flatten = _
      rw [List.map_map]
      rfl
    rw [heq]
    exact h

/-- Witness for `output_grouped_and_time_ordered`: two meters over
`[0, 30]` at a 15-minute interval. -/
theorem output_grouped_and_time_ordered_witness :
    List.Chain' (fun a b : Measurement => a.meterId < b.meterId ∨
        (a.meterId = b.meterId ∧ a.timestamp ≤ b.timestamp))
      (generateSmartMeterData 2 0 30 15 (fun _ => fixedMeterRand)).1 ∧
    List.Chain' (fun a b : Event => a.meterId < b.meterId ∨
        (a.meterId = b.meterId ∧ a.timestamp ≤ b.timestamp))
      (generateSmartMeterData 2 0 30 15 (fun _ => fixedMeterRand)).2 :=
  output_grouped_and_time_ordered 2 0 30 15 (fun _ => fixedMeterRand)
    (by norm_num)

/-- C8: every phase voltage of every measurement lies in `[225.4, 234.6]`
and every power factor lies in `[0.92, 0.99]`, given draws from the
documented distributions. -/
theorem voltage_powerfactor_bounds (numMeters s e iv : ℕ)
    (mrs : ℕ → MeterRand) (hv : ∀ j, (mrs j).Valid) :
    ∀ m ∈ (generateSmartMeterData numMeters s e iv mrs).1,
      (225.4 ≤ m.voltagePhase1V ∧ m.voltagePhase1V ≤ 234.6) ∧
      (225.4 ≤ m.voltagePhase2V ∧ m.voltagePhase2V ≤ 234.6) ∧
      (225.4 ≤ m.voltagePhase3V ∧ m.voltagePhase3V ≤ 234.6) ∧
      (0.92 ≤ m.powerFactor ∧ m.powerFactor ≤ 0.99) := by
  intro m hm
  obtain ⟨j, hj, hmem⟩ := mem_generate_fst hm
  obtain ⟨h1, h2, h3, h4, h5, h6, h7, h8⟩ :=
    runMeterAux_meas_bounds j iv e (abnormalityFactor (mrs j))
      (mrs j).stepDraws 0 s MeterState.init ((hv j).2.2.2.2) m hmem
  exact ⟨⟨h1, h2⟩, ⟨h3, h4⟩, ⟨h5, h6⟩, ⟨h7, h8⟩⟩

/-- Witness for `voltage_powerfactor_bounds`: the first measurement of a
one-meter, one-step run with the fixed oracle. -/
theorem voltage_powerfactor_bounds_witness :
    ∃ m ∈ (generateSmartMeterData 1 0 0 15 (fun _ => fixedMeterRand)).1,
      (225.4 ≤ m.voltagePhase1V ∧ m.voltagePhase1V ≤ 234.6) ∧
      (225.4 ≤ m.voltagePhase2V ∧ m.voltagePhase2V ≤ 234.6) ∧
      (225.4 ≤ m.voltagePhase3V ∧ m.voltagePhase3V ≤ 234.6) ∧
      (0.92 ≤ m.powerFactor ∧ m.powerFactor ≤ 0.99) := by
  have hne : (generateSmartMeterData 1 0 0 15 (fun _ => fixedMeterRand)).1 ≠ [] := by
    simp [generateSmartMeterData, runMeter, runMeterAux]
  exact ⟨_, List.head_mem hne,
    voltage_powerfactor_bounds 1 0 0 15 (fun _ => fixedMeterRand)
      (fun _ => fixedMeterRand_valid) _ (List.head_mem hne)⟩

/-- C9: a step emits at most one anomaly event and at most one background
event, hence at most 2 event records per step, and each meter's event count
is bounded by 2 times its measurement count (= its number of steps). -/
theorem events_bounded_two_per_step (meterId interval : ℕ) (ab : ℚ) (t : ℕ)
    (r : StepRand) (st : MeterState) (s e : ℕ) (mr : MeterRand) :
    (anomalyEvents meterId t ab r).length ≤ 1 ∧
    (backgroundEvents meterId t r).length ≤ 1 ∧
    (runStep meterId interval ab t r st).events.length ≤ 2 ∧
    (runMeter meterId s e interval mr).2.length
      ≤ 2 * (runMeter meterId s e interval mr).1.length :=
  ⟨anomalyEvents_length_le meterId t ab r,
   backgroundEvents_length_le meterId t r,
   runStep_events_len meterId interval ab t r st,
   runMeterAux_events_le meterId interval e (abnormalityFactor mr)
     mr.stepDraws 0 s MeterState.init⟩

/-- C10: every event's `(meter_id, timestamp)` pair also occurs on some
measurement record: events are only emitted at steps that also emit a
measurement. -/
theorem events_reference_measurements (numMeters s e iv : ℕ)
    (mrs : ℕ → MeterRand) :
    ∀ ev ∈ (generateSmartMeterData numMeters s e iv mrs).2,
      ∃ m ∈ (generateSmartMeterData numMeters s e iv mrs).1,
        m.meterId = ev.meterId ∧ m.timestamp = ev.timestamp := by
  intro ev hev
  obtain ⟨j, hj, hmem⟩ := mem_generate_snd hev
  obtain ⟨-, -, m, hm, h3⟩ := runMeterAux_event_mem j iv e
    (abnormalityFactor (mrs j)) (mrs j).stepDraws 0 s MeterState.init ev hmem
  exact ⟨m, generate_fst_mem hj hm, h3⟩

/-- Witness for `events_reference_measurements`: with the fixed oracle the
single step emits a `VOLTAGE_SWELL` event, and a measurement with its
`(meter_id, timestamp)` exists. -/
theorem events_reference_measurements_witness :
    ∃ ev ∈ (generateSmartMeterData 1 0 0 15 (fun _ => fixedMeterRand)).2,
      ∃ m ∈ (generateSmartMeterData 1 0 0 15 (fun _ => fixedMeterRand)).1,
        m.meterId = ev.meterId ∧ m.timestamp = ev.timestamp := by
  have hg : (generateSmartMeterData 1 0 0 15 (fun _ => fixedMeterRand)).2
      = (runMeter 0 0 0 15 fixedMeterRand).2 := by
    show (((List.range 1).map (fun i => runMeter i 0 0 15 fixedMeterRand)).map
      Prod.snd).flatten = _
    simp [List.range_succ]
  have hanom : anomalyEvents 0 0 (abnormalityFactor fixedMeterRand)
      (fixedMeterRand.stepDraws 0)
      = [⟨0, 0, "VOLTAGE_SWELL", "Voltage swell detected"⟩] := by
    norm_num [anomalyEvents, abnormalityFactor, fixedMeterRand, fixedStepRand]
  have hne : (generateSmartMeterData 1 0 0 15 (fun _ => fixedMeterRand)).2 ≠ [] := by
    rw [hg]
    unfold runMeter
    rw [runMeterAux, dif_pos (⟨le_refl 0, by norm_num⟩ : (0 : ℕ) ≤ 0 ∧ 0 < 15)]
    show (runStep 0 15 (abnormalityFactor fixedMeterRand) 0
        (fixedMeterRand.stepDraws 0) MeterState.init).events ++ _ ≠ []
    show (anomalyEvents 0 0 (abnormalityFactor fixedMeterRand)
        (fixedMeterRand.stepDraws 0) ++ _) ++ _ ≠ []
    rw [hanom]
    simp
  exact ⟨_, List.head_mem hne,
    events_reference_measurements 1 0 0 15 (fun _ => fixedMeterRand) _
      (List.head_mem hne)⟩

end SmartMeter
